import Mathlib

/-!
Verification of the ai-signal-feed repository against its specification.

The development shallowly embeds the parts of the code that the claims
touch:

* src/src/classifier/signal_classifier.py : the SignalClassifier class
  (keyword, source, authority and recency sub-scores, the tier decision,
  and the classification summary);
* src/config/settings.py : the SIGNAL_WEIGHTS keyword lists;
* src/src/database/database.py : add_feed_item, get_feed_items and
  get_item_count over an abstract row store (the SQLAlchemy session is
  modelled as a list of rows, queried and appended in order);
* src/app/streamlit_app.py : the run_manual_scrape orchestration,
  modelled as a trace of scrape and save events plus the resulting store.

Python floats are modelled as exact rationals, Python ints as Int, and
text as lists of characters.  A Python operation that can raise inside
classify (the division by a zero threshold in _calculate_source_score)
is modelled in an Except monad; the try/except of classify catches it.
Regular-expression word-boundary search (re.search with a pattern of the
form word boundary, escaped keyword, word boundary) is modelled by
scanMatch below, with the word-character class taken as ASCII
alphanumerics plus underscore.  Python str.lower is modelled
character-wise on ASCII.
-/

namespace AiSignalFeed

/-! ## Characters and strings -/

def lowerChar (c : Char) : Char :=
  if 'A' ≤ c ∧ c ≤ 'Z' then Char.ofNat (c.toNat + 32) else c

def lowerStr (s : List Char) : List Char := s.map lowerChar

def str (s : String) : List Char := s.toList

/-- The word-character class of the regex metacharacter backslash-w,
restricted to ASCII. -/
def isWordChar (c : Char) : Bool := c.isAlphanum || c == '_'

def optIsWord : Option Char → Bool
  | none => false
  | some c => isWordChar c

/-- A word boundary holds between two (possibly absent) characters when
exactly one side is a word character. -/
def bdry (l r : Option Char) : Bool := optIsWord l != optIsWord r

/-- The regex pattern word-boundary ++ kw ++ word-boundary matches at the
start of t, where prev is the character immediately before t (none at the
start of the searched string). -/
def matchHere (prev : Option Char) (t kw : List Char) : Bool :=
  bdry prev t.head? && List.isPrefixOf kw t &&
    bdry (if kw.isEmpty then prev else kw.getLast?) (t.drop kw.length).head?

/-- Scan t left to right looking for a word-bounded occurrence of kw,
carrying the previous character. -/
def scanMatch (kw : List Char) : Option Char → List Char → Bool
  | prev, [] => matchHere prev [] kw
  | prev, c :: rest => matchHere prev (c :: rest) kw || scanMatch kw (some c) rest

/-- re.search of the word-bounded keyword pattern in t. -/
def hasWordMatch (t kw : List Char) : Bool := scanMatch kw none t

/-- Python substring containment (the in operator on str). -/
def isSubstring (needle hay : List Char) : Bool :=
  (List.range (hay.length + 1)).any (fun i => List.isPrefixOf needle (hay.drop i))

/-- The characters removed by Python str.strip (ASCII whitespace). -/
def pyIsSpace (c : Char) : Bool :=
  c == ' ' || c == '\t' || c == '\n' || c == '\r' ||
    c == Char.ofNat 11 || c == Char.ofNat 12

/-- Python str.strip: drop leading and trailing whitespace. -/
def pyStrip (t : List Char) : List Char :=
  ((t.dropWhile pyIsSpace).reverse.dropWhile pyIsSpace).reverse

/-! ## config/settings.py : SIGNAL_WEIGHTS -/

def SIGNAL_WEIGHTS_high_impact_keywords : List (List Char) :=
  [ str "state-of-the-art", str "SOTA", str "breakthrough", str "introduce",
    str "new model", str "open source", str "dataset", str "benchmark",
    str "outperform", str "record" ]

def SIGNAL_WEIGHTS_curious_keywords : List (List Char) :=
  [ str "experiment", str "explore", str "try", str "attempt", str "hack",
    str "tool", str "library", str "implementation", str "clone",
    str "recreation" ]

def SIGNAL_WEIGHTS_insight_keywords : List (List Char) :=
  [ str "explain", str "understand", str "analysis", str "review",
    str "comparison", str "survey", str "trend", str "thoughts",
    str "opinion", str "commentary" ]

/-! ## The item record

An item is the duck-typed dict flowing through the pipeline; a missing
key is none, and the .get defaults of the code are applied at each use
site exactly as in the source.  A published_date that is present but
unparseable (or otherwise makes the datetime arithmetic raise inside
_calculate_recency_score) is the invalid constructor; a parseable one is
valid with its POSIX timestamp in seconds. -/

inductive PubDate where
  | valid (seconds : Int)
  | invalid
deriving DecidableEq

structure Item where
  title : Option String := none
  description : Option String := none
  source : Option String := none
  source_id : Option String := none
  url : Option String := none
  author : Option String := none
  score : Option Int := none
  comment_count : Option Int := none
  published_date : Option PubDate := none
  signal_type : Option String := none
  confidence_score : Option ℚ := none
deriving DecidableEq

/-! ## SignalClassifier -/

/-- The keyword lists lowercased in SignalClassifier.__init__. -/
def high_impact_keywords : List (List Char) :=
  SIGNAL_WEIGHTS_high_impact_keywords.map lowerStr

def curious_keywords : List (List Char) :=
  SIGNAL_WEIGHTS_curious_keywords.map lowerStr

def insight_keywords : List (List Char) :=
  SIGNAL_WEIGHTS_insight_keywords.map lowerStr

/-- self.score_thresholds: the red and yellow engagement floors per
source; none for a source outside the dict. -/
def score_thresholds (source : String) : Option (Int × Int) :=
  if source = "github" then some (100, 20)
  else if source = "reddit" then some (50, 10)
  else if source = "hackernews" then some (100, 20)
  else if source = "arxiv" then some (0, 0)
  else none

/-- SignalClassifier._get_analysis_text: lowercased title, a space, the
lowercased description truncated to 200 characters, stripped. -/
def get_analysis_text (item : Item) : List Char :=
  let title := lowerStr (str (item.title.getD ""))
  let description := lowerStr (str (item.description.getD ""))
  let description := if 200 < description.length then description.take 200 else description
  pyStrip (title ++ ' ' :: description)

/-- SignalClassifier._calculate_keyword_score. -/
def calculate_keyword_score (text : List Char) (keywords : List (List Char)) : ℚ :=
  if text.isEmpty || keywords.isEmpty then 0
  else
    let matched : Nat := keywords.countP (fun kw => hasWordMatch text kw)
    let base_score : ℚ := (matched : ℚ) / (keywords.length : ℚ)
    let bonus : ℚ := min ((matched : ℚ) * 0.1) 0.3
    min (base_score + bonus) 1

/-- SignalClassifier._calculate_source_score.  In the branch below the
yellow floor the Python code divides by the yellow floor; when that
floor is zero this raises ZeroDivisionError, modelled as the error case. -/
def calculate_source_score (item : Item) : Except Unit ℚ :=
  let source := item.source.getD ""
  let score := item.score.getD 0
  match score_thresholds source with
  | none => Except.ok 0.1
  | some (red, yellow) =>
    if red ≤ score then Except.ok 1
    else if yellow ≤ score then Except.ok 0.6
    else if yellow = 0 then Except.error ()
    else Except.ok (min ((score : ℚ) / (yellow : ℚ) * 0.4) 0.4)

def known_authors : List (List Char) :=
  [ str "yann lecun", str "geoffrey hinton", str "yoshua bengio",
    str "andrew ng", str "fei-fei li", str "demis hassabis",
    str "ilya sutskever", str "andrej karpathy" ]

def authoritative_domains : List (List Char) :=
  [ str "arxiv.org", str "github.com", str "openai.com", str "deepmind.com",
    str "research.google", str "ai.facebook.com", str "microsoft.com/research" ]

/-- SignalClassifier._calculate_authority_score. -/
def calculate_authority_score (item : Item) : ℚ :=
  let author := lowerStr (str (item.author.getD ""))
  let s1 : ℚ :=
    if author.isEmpty then 0
    else if known_authors.any (fun n => isSubstring n author) then 0.3 else 0
  let url := lowerStr (str (item.url.getD ""))
  let s2 : ℚ :=
    if authoritative_domains.any (fun d => isSubstring d url) then 0.2 else 0
  let s3 : ℚ := if item.source.getD "" = "arxiv" then 0.2 else 0
  min (s1 + s2 + s3) 1

/-- SignalClassifier._calculate_recency_score, with the wall clock now in
POSIX seconds. -/
def calculate_recency_score (item : Item) (now : Int) : ℚ :=
  match item.published_date with
  | none => 0.3
  | some PubDate.invalid => 0.3
  | some (PubDate.valid t) =>
    let age_hours : ℚ := ((now - t : Int) : ℚ) / 3600
    if age_hours < 6 then 1
    else if age_hours < 24 then 0.8
    else if age_hours < 72 then 0.6
    else if age_hours < 168 then 0.4
    else 0.1

/-- The red tier-score of classify, given the source sub-score. -/
def red_score (item : Item) (now : Int) (source_score : ℚ) : ℚ :=
  calculate_keyword_score (get_analysis_text item) high_impact_keywords * 0.4 +
    source_score * 0.3 +
    calculate_authority_score item * 0.2 +
    calculate_recency_score item now * 0.1

/-- The yellow tier-score of classify, given the source sub-score. -/
def yellow_score (item : Item) (now : Int) (source_score : ℚ) : ℚ :=
  calculate_keyword_score (get_analysis_text item) curious_keywords * 0.4 +
    source_score * 0.2 +
    calculate_authority_score item * 0.2 +
    calculate_recency_score item now * 0.2

/-- The green tier-score of classify (no source component). -/
def green_score (item : Item) (now : Int) : ℚ :=
  calculate_keyword_score (get_analysis_text item) insight_keywords * 0.5 +
    calculate_authority_score item * 0.3 +
    calculate_recency_score item now * 0.2

/-- The decision cascade of classify, lines 80 to 90 of the classifier. -/
def tierDecision (r y g : ℚ) : String × ℚ :=
  let max_score := max r (max y g)
  if r = max_score ∧ 0.3 < r then ("red", min r 1)
  else if y = max_score ∧ 0.2 < y then ("yellow", min y 1)
  else ("green", min (max g 0.1) 1)

/-- The body of SignalClassifier.classify inside its try block; an
exception raised by a sub-score propagates. -/
def classifyBody (item : Item) (now : Int) : Except Unit (String × ℚ) :=
  match calculate_source_score item with
  | Except.error e => Except.error e
  | Except.ok source_score =>
    Except.ok (tierDecision (red_score item now source_score)
      (yellow_score item now source_score) (green_score item now))

/-- SignalClassifier.classify: the try/except wrapper returning the
fallback on any internal failure. -/
def classify (item : Item) (now : Int) : String × ℚ :=
  match classifyBody item now with
  | Except.ok r => r
  | Except.error _ => ("green", 0.1)

/-- Python round to an integer: round-half-to-even. -/
def pyRoundInt (q : ℚ) : Int :=
  let f := q.floor
  let r := q - (f : ℚ)
  if r < 1/2 then f
  else if 1/2 < r then f + 1
  else if f % 2 = 0 then f else f + 1

/-- Python round(x, 1). -/
def pyRound1 (q : ℚ) : ℚ := ((pyRoundInt (q * 10) : Int) : ℚ) / 10

/-- SignalClassifier.get_classification_summary, the returned dict
modelled as an association list in insertion order. -/
def get_classification_summary (items : List Item) (now : Int) : List (String × ℚ) :=
  if items.isEmpty then
    [("total", 0), ("red", 0), ("yellow", 0), ("green", 0)]
  else
    let classifications := items.map (fun it => (classify it now).1)
    [ ("total", (items.length : ℚ)),
      ("red", (classifications.count "red" : ℚ)),
      ("yellow", (classifications.count "yellow" : ℚ)),
      ("green", (classifications.count "green" : ℚ)),
      ("red_pct", pyRound1 ((classifications.count "red" : ℚ) / (items.length : ℚ) * 100)),
      ("yellow_pct", pyRound1 ((classifications.count "yellow" : ℚ) / (items.length : ℚ) * 100)),
      ("green_pct", pyRound1 ((classifications.count "green" : ℚ) / (items.length : ℚ) * 100)) ]

/-! ## DatabaseManager (src/src/database/database.py)

The persistent store behind the SQLAlchemy session is modelled as the
list of feed_items rows in insertion order.  A row keeps the columns the
claims touch; scraped_date is the server default datetime.utcnow at
insertion time, passed in as now. -/

structure Row where
  source : Option String
  source_id : Option String
  url : Option String
  title : Option String
  description : Option String
  author : Option String
  published_date : Option PubDate
  scraped_date : Int
  score : Int
  comment_count : Int
  signal_type : String
  confidence_score : ℚ
deriving DecidableEq

structure DB where
  rows : List Row
deriving DecidableEq

/-- The duplicate check of add_feed_item: an existing row with the same
source and source_id columns (SQL NULL compares as the absent option). -/
def matchesPair (item : Item) (r : Row) : Bool :=
  r.source == item.source && r.source_id == item.source_id

/-- The FeedItem row constructed by add_feed_item, with the .get defaults
of the code. -/
def mkRow (item : Item) (now : Int) : Row :=
  { source := item.source
    source_id := item.source_id
    url := item.url
    title := item.title
    description := item.description
    author := item.author
    published_date := item.published_date
    scraped_date := now
    score := item.score.getD 0
    comment_count := item.comment_count.getD 0
    signal_type := item.signal_type.getD "green"
    confidence_score := item.confidence_score.getD 0 }

/-- The NOT NULL columns of the feed_items table (models.py declares
source, source_id, url and title with nullable=False; signal_type is
also NOT NULL but add_feed_item always supplies its "green" default).
An insert violating one of them raises IntegrityError at commit. -/
def notNullOk (item : Item) : Bool :=
  item.source.isSome && item.source_id.isSome && item.url.isSome && item.title.isSome

/-- DatabaseManager.add_feed_item: return none and leave the store
unchanged when a row with the same (source, source_id) already exists;
otherwise insert and commit.  A commit violating a NOT NULL column
raises IntegrityError, which the except branch of the code catches:
it rolls the insert back and returns none, persisting nothing.  On
success the new row is returned. -/
def add_feed_item (db : DB) (item : Item) (now : Int) : Option Row × DB :=
  if db.rows.any (matchesPair item) then (none, db)
  else if notNullOk item then
    let r := mkRow item now
    (some r, DB.mk (db.rows ++ [r]))
  else (none, db)

/-- The number of persisted rows carrying a given (source, source_id). -/
def pairCount (db : DB) (s sid : Option String) : Nat :=
  (db.rows.filter (fun r => r.source == s && r.source_id == sid)).length

/-- The source filter of get_feed_items and get_item_count; a Python
falsy argument (None or the empty string) disables the filter. -/
def sourceFilter (source : Option String) (r : Row) : Bool :=
  match source with
  | none => true
  | some s => if s.isEmpty then true else r.source == some s

/-- The signal_type filter; same truthiness convention. -/
def signalFilter (signal_type : Option String) (r : Row) : Bool :=
  match signal_type with
  | none => true
  | some s => if s.isEmpty then true else r.signal_type == s

/-- The hours_back filter of get_feed_items: rows scraped at or after
now minus hours_back hours; a falsy argument (None or 0) disables it. -/
def timeFilter (hours_back : Option Int) (now : Int) (r : Row) : Bool :=
  match hours_back with
  | none => true
  | some h => if h == 0 then true else decide (now - h * 3600 ≤ r.scraped_date)

/-- Sorting by scraped_date descending (the order_by of get_feed_items),
as an insertion sort. -/
def insertDesc (r : Row) : List Row → List Row
  | [] => [r]
  | x :: xs =>
    if x.scraped_date ≤ r.scraped_date then r :: x :: xs else x :: insertDesc r xs

def sortDesc (l : List Row) : List Row := l.foldr insertDesc []

/-- DatabaseManager.get_feed_items: filter, order by scraped_date
descending, then offset and limit. -/
def get_feed_items (db : DB) (limit offset : Nat) (source signal_type : Option String)
    (hours_back : Option Int) (now : Int) : List Row :=
  let filtered := db.rows.filter (fun r =>
    sourceFilter source r && signalFilter signal_type r && timeFilter hours_back now r)
  ((sortDesc filtered).drop offset).take limit

/-- DatabaseManager.get_item_count: the count query takes only the
source and signal_type filters (it has no hours_back parameter). -/
def get_item_count (db : DB) (source signal_type : Option String) : Nat :=
  (db.rows.filter (fun r => sourceFilter source r && signalFilter signal_type r)).length

/-! ## run_manual_scrape (src/app/streamlit_app.py)

The manual ingestion run is modelled over the list of per-source scrape
outcomes, in the fixed adapter order of the code; an Except.error entry
is a scraper whose scrape() raised (caught by the per-source handler,
which continues with the next source).  The run is abstracted to the
trace of its externally visible steps: a scrape event when a source is
processed and a save event when an item is classified and handed to
add_feed_item.  The code first accumulates every scraped item into
all_items and only then runs the classify-and-save loop. -/

inductive SEvent where
  | scrape (src : Nat)
  | save (src : Nat)
deriving DecidableEq

/-- all_items accumulated by the scraping loop, each item tagged with the
index of the source it came from; a failed source contributes nothing. -/
def collectAll : Nat → List (Except Unit (List Item)) → List (Nat × Item)
  | _, [] => []
  | i, Except.ok its :: rest => its.map (fun it => (i, it)) ++ collectAll (i + 1) rest
  | i, Except.error _ :: rest => collectAll (i + 1) rest

/-- The classification fields the save loop writes into the item dict
before persisting it. -/
def withClassification (item : Item) (now : Int) : Item :=
  let c := classify item now
  { item with signal_type := some c.1, confidence_score := some c.2 }

/-- run_manual_scrape: scrape every source in order collecting all_items,
then classify and persist the accumulated items in one batch.  Returns
the event trace and the final store. -/
def run_manual_scrape (results : List (Except Unit (List Item))) (db : DB) (now : Int) :
    List SEvent × DB :=
  let all_items := collectAll 0 results
  let finalDb := all_items.foldl
    (fun d p => (add_feed_item d (withClassification p.2 now) now).2) db
  ((List.range results.length).map SEvent.scrape ++
      all_items.map (fun p => SEvent.save p.1),
    finalDb)

/-- The ordering property claimed of the run: every persistence step of
an earlier source happens before any processing step of a later source. -/
def perSourceBatchOrder (tr : List SEvent) : Bool :=
  tr.enum.all (fun pi =>
    match pi.2 with
    | SEvent.save a =>
      tr.enum.all (fun pj =>
        match pj.2 with
        | SEvent.scrape b => if a < b then decide (pi.1 < pj.1) else true
        | _ => true)
    | _ => true)

/-! ## Specification-side definitions

These definitions follow the wording of the specification claims, to be
compared against the code-side definitions above. -/

/-- The two-floor engagement formula as the specification words it:
1.0 at or above the red floor, else 0.6 at or above the yellow floor,
else min(score / yellowFloor * 0.4, 0.4). -/
def floorsFormula (redFloor yellowFloor score : Int) : ℚ :=
  if redFloor ≤ score then 1
  else if yellowFloor ≤ score then 0.6
  else min ((score : ℚ) / (yellowFloor : ℚ) * 0.4) 0.4

/-- The source sub-score as the specification states it, with the
per-source floors github 100/20, reddit 50/10, hackernews 100/20,
arxiv 0/0, and a flat 0.1 for an unknown source. -/
def spec_source_score (source : String) (score : Int) : ℚ :=
  if source = "github" then floorsFormula 100 20 score
  else if source = "reddit" then floorsFormula 50 10 score
  else if source = "hackernews" then floorsFormula 100 20 score
  else if source = "arxiv" then floorsFormula 0 0 score
  else 0.1

/-- The analysis text as the specification words it: the lowercased
title, a space, and the first 200 characters of the lowercased
description (no stripping mentioned). -/
def spec_analysis_text (title description : List Char) : List Char :=
  lowerStr title ++ ' ' :: (lowerStr description).take 200

/-- The keyword sub-score as the specification words it:
min(matches/cardinality + min(matches * 0.1, 0.3), 1.0), with matches
counted by whole-word occurrence in the spec analysis text, and 0.0 when
the text or the keyword set is empty. -/
def spec_keyword_score (title description : List Char) (keywords : List (List Char)) : ℚ :=
  let text := spec_analysis_text title description
  if text.isEmpty || keywords.isEmpty then 0
  else
    let matched : Nat := keywords.countP (fun kw => hasWordMatch text kw)
    min ((matched : ℚ) / (keywords.length : ℚ) + min ((matched : ℚ) * 0.1) 0.3) 1

/-- A keyword that is nonempty and starts and ends with a word
character; every configured keyword satisfies this, and for such
keywords stripping the searched text cannot change whole-word matches. -/
def kwEdgeOk (kw : List Char) : Bool :=
  !kw.isEmpty && optIsWord kw.head? && optIsWord kw.getLast?

/-- The per-item tiers underlying get_classification_summary. -/
def tiersOf (items : List Item) (now : Int) : List String :=
  items.map (fun it => (classify it now).1)

/-! ## Concrete inputs used by witnesses and counterexamples -/

/-- The item dictionary with every field missing. -/
def emptyItem : Item := {}

/-- The end-to-end scenario item of the specification. -/
def hnItem : Item :=
  { title := some "GPT-5 breakthrough outperforms all benchmarks"
    description := some ""
    source := some "hackernews"
    score := some 200 }

/-- An item whose red and yellow tier-scores are exactly equal (both
11/25) and above their thresholds: no keyword hits, a source score of 1,
a github.com authority bonus, and a fresh published date. -/
def tieItem : Item :=
  { title := some "zzz"
    source := some "github"
    score := some 150
    url := some "https://github.com/x"
    published_date := some (PubDate.valid 0) }

/-- An arXiv item with a negative engagement score: its source sub-score
divides by the zero yellow floor, the one internal failure of classify. -/
def badItem : Item := { source := some "arxiv", score := some (-1) }

/-- A GitHub item sitting exactly on the yellow floor of 20 stars. -/
def githubItem20 : Item := { source := some "github", score := some 20 }

/-- An item for the ingestion claims that is missing its url: the NOT
NULL constraint on the url column makes its insert fail at commit. -/
def itemA : Item :=
  { title := some "t", source := some "github", source_id := some "x1" }

/-- An item for the ingestion claims with every NOT NULL column
present. -/
def itemB : Item :=
  { title := some "t", source := some "github", source_id := some "x1"
    url := some "https://github.com/x1" }

def db0 : DB := DB.mk []

/-- A store already holding the row of itemB. -/
def dbDupB : DB := DB.mk [mkRow itemB 0]

/-- A persisted row scraped at time 0, older than one hour at time
1000000. -/
def oldRow : Row :=
  { source := some "github", source_id := some "a", url := none, title := none
    description := none, author := none, published_date := none
    scraped_date := 0, score := 0, comment_count := 0
    signal_type := "green", confidence_score := 0 }

def exDB7 : DB := DB.mk [oldRow]

/-- Two sources that both succeed with one item each. -/
def exResults6 : List (Except Unit (List Item)) :=
  [Except.ok [hnItem], Except.ok [emptyItem]]

/-- Three sources of which the middle one fails. -/
def resultsW6 : List (Except Unit (List Item)) :=
  [Except.ok [hnItem], Except.error (), Except.ok [emptyItem]]


/-! # Theorems -/

/-! ## Helper lemmas for evaluating the classifier -/

/-- classify through a successful source sub-score. -/
theorem classify_eq_tierDecision (item : Item) (now : Int) (ss : ℚ)
    (h : calculate_source_score item = Except.ok ss) :
    classify item now =
      tierDecision (red_score item now ss) (yellow_score item now ss)
        (green_score item now) := by
  simp [classify, classifyBody, h]

theorem tierDecision_red_eq (r y g : ℚ) (h1 : r = max r (max y g))
    (h2 : (0.3 : ℚ) < r) : tierDecision r y g = ("red", min r 1) := by
  simp only [tierDecision]
  rw [if_pos ⟨h1, h2⟩]

theorem tierDecision_green_eq (r y g : ℚ)
    (h1 : ¬ (r = max r (max y g) ∧ (0.3 : ℚ) < r))
    (h2 : ¬ (y = max r (max y g) ∧ (0.2 : ℚ) < y)) :
    tierDecision r y g = ("green", min (max g 0.1) 1) := by
  simp only [tierDecision]
  rw [if_neg h1, if_neg h2]

theorem keyword_score_eval (text : List Char) (kws : List (List Char)) (m n : Nat)
    (hne : text.isEmpty = false) (hke : kws.isEmpty = false)
    (hm : kws.countP (fun kw => hasWordMatch text kw) = m) (hn : kws.length = n) :
    calculate_keyword_score text kws =
      min ((m : ℚ) / (n : ℚ) + min ((m : ℚ) * 0.1) 0.3) 1 := by
  simp only [calculate_keyword_score, hne, hke, hm, hn, Bool.or_self,
    Bool.false_eq_true, if_false]

/-- The keyword sub-score of the item with no fields is 0 for every
keyword list: the analysis text strips to the empty string. -/
theorem emptyItem_kw (kws : List (List Char)) :
    calculate_keyword_score (get_analysis_text emptyItem) kws = 0 := rfl

theorem emptyItem_scores (now : Int) :
    red_score emptyItem now 0.1 = 0.06 ∧
    yellow_score emptyItem now 0.1 = 0.08 ∧
    green_score emptyItem now = 0.06 := by
  have ha : calculate_authority_score emptyItem = 0 := by
    rw [show calculate_authority_score emptyItem = min ((0 : ℚ) + 0 + 0) 1 from rfl]
    norm_num [min_def]
  have hrec : calculate_recency_score emptyItem now = 0.3 := rfl
  refine ⟨?_, ?_, ?_⟩ <;>
  · simp only [red_score, yellow_score, green_score]
    rw [emptyItem_kw, ha, hrec]
    norm_num

/-- C2: classify never surfaces an internal exception: whenever its body
fails the caller receives the fallback (green, 0.1); and the item with
all fields empty or missing classifies as green with confidence exactly
0.1, hence at least 0.1. -/
theorem claim_C2_never_raises_fallback (item : Item) (now : Int) :
    (∀ e : Unit, classifyBody item now = Except.error e →
      classify item now = ("green", 0.1)) ∧
    classify emptyItem now = ("green", 0.1) ∧
    (0.1 : ℚ) ≤ (classify emptyItem now).2 := by
  have hcl : classify emptyItem now = ("green", 0.1) := by
    rw [classify_eq_tierDecision emptyItem now 0.1 rfl]
    obtain ⟨hr, hy, hg⟩ := emptyItem_scores now
    rw [hr, hy, hg]
    rw [tierDecision_green_eq]
    · rw [show min (max (0.06 : ℚ) 0.1) 1 = 0.1 from by norm_num [min_def, max_def]]
    · rintro ⟨-, hlt⟩
      norm_num at hlt
    · rintro ⟨-, hlt⟩
      norm_num at hlt
  refine ⟨fun e h => by simp [classify, h], hcl, ?_⟩
  rw [hcl]

/-- Witness for C2: the arXiv item with a negative score makes the body
fail, and classify returns the fallback on it. -/
theorem claim_C2_witness :
    classifyBody badItem 0 = Except.error () ∧
    classify badItem 0 = ("green", 0.1) :=
  ⟨rfl, (claim_C2_never_raises_fallback badItem 0).1 () rfl⟩

/-- C3: the source sub-score is 0.1 for a source outside the known set,
and otherwise follows the two-floor formula with the per-source floors of
the code; in particular a GitHub item with exactly 20 stars scores 0.6,
not 1.0.  The hypothesis excludes the arXiv items with a negative score,
on which the code raises instead of producing a value. -/
theorem claim_C3_source_score (item : Item)
    (h : item.source.getD "" = "arxiv" → 0 ≤ item.score.getD 0) :
    calculate_source_score item =
      Except.ok (spec_source_score (item.source.getD "") (item.score.getD 0)) ∧
    (item.source = some "github" → item.score = some 20 →
      calculate_source_score item = Except.ok 0.6) := by
  constructor
  · by_cases h1 : item.source.getD "" = "github"
    · simp only [calculate_source_score, h1,
        show score_thresholds "github" = some (100, 20) from rfl,
        show ∀ sc : Int, spec_source_score "github" sc = floorsFormula 100 20 sc
          from fun sc => rfl]
      unfold floorsFormula
      split_ifs with a b c <;> first | rfl | omega
    · by_cases h2 : item.source.getD "" = "reddit"
      · simp only [calculate_source_score, h2,
          show score_thresholds "reddit" = some (50, 10) from rfl,
          show ∀ sc : Int, spec_source_score "reddit" sc = floorsFormula 50 10 sc
            from fun sc => rfl]
        unfold floorsFormula
        split_ifs with a b c <;> first | rfl | omega
      · by_cases h3 : item.source.getD "" = "hackernews"
        · simp only [calculate_source_score, h3,
            show score_thresholds "hackernews" = some (100, 20) from rfl,
            show ∀ sc : Int, spec_source_score "hackernews" sc = floorsFormula 100 20 sc
              from fun sc => rfl]
          unfold floorsFormula
          split_ifs with a b c <;> first | rfl | omega
        · by_cases h4 : item.source.getD "" = "arxiv"
          · have hsc := h h4
            simp only [calculate_source_score, h4,
              show score_thresholds "arxiv" = some (0, 0) from rfl,
              show ∀ sc : Int, spec_source_score "arxiv" sc = floorsFormula 0 0 sc
                from fun sc => rfl]
            unfold floorsFormula
            split_ifs with a b c <;> first | rfl | omega
          · simp only [calculate_source_score, score_thresholds, spec_source_score,
              if_neg h1, if_neg h2, if_neg h3, if_neg h4]
  · intro hs hsc
    simp only [calculate_source_score, hs, hsc, Option.getD_some,
      show score_thresholds "github" = some (100, 20) from rfl]
    rw [if_neg (by omega), if_pos (by omega)]

/-- Witness for C3: the GitHub item with exactly 20 stars. -/
theorem claim_C3_witness :
    calculate_source_score githubItem20 = Except.ok 0.6 ∧
    spec_source_score "github" 20 = 0.6 :=
  ⟨(claim_C3_source_score githubItem20 (by decide)).2 rfl rfl, rfl⟩

/-- C10: on an arXiv item with a non-negative engagement score the red
floor of 0 fires first, so the source sub-score is exactly 1 and the
division by the zero yellow floor is unreachable: the classify body
succeeds and classify returns its value, not the fallback. -/
theorem claim_C10_arxiv_division_unreachable (item : Item) (now : Int)
    (hsrc : item.source = some "arxiv") (hsc : 0 ≤ item.score.getD 0) :
    calculate_source_score item = Except.ok 1 ∧
    classifyBody item now = Except.ok (classify item now) := by
  have h1 : calculate_source_score item = Except.ok 1 := by
    simp only [calculate_source_score, hsrc, Option.getD_some,
      show score_thresholds "arxiv" = some (0, 0) from rfl]
    rw [if_pos hsc]
  refine ⟨h1, ?_⟩
  simp [classifyBody, classify, h1]

/-- Witness for C10: an arXiv item with score 0. -/
theorem claim_C10_witness :
    calculate_source_score { source := some "arxiv", score := some 0 } = Except.ok 1 ∧
    classifyBody { source := some "arxiv", score := some 0 } 0 =
      Except.ok (classify { source := some "arxiv", score := some 0 } 0) :=
  claim_C10_arxiv_division_unreachable { source := some "arxiv", score := some 0 } 0 rfl
    (by decide)

/-- C9: the end-to-end scenario item (hackernews, score 200, the GPT-5
title, empty description) classifies red with confidence 0.41, which is
strictly above 0.3; the high-impact set hits the title by whole words
(breakthrough matches, giving the set a sub-score of 0.2). -/
theorem claim_C9_end_to_end (now : Int) :
    classify hnItem now = ("red", 0.41) ∧
    (0.3 : ℚ) < 0.41 ∧
    hasWordMatch (get_analysis_text hnItem) (str "breakthrough") = true ∧
    calculate_keyword_score (get_analysis_text hnItem) high_impact_keywords = 0.2 := by
  have hk : calculate_keyword_score (get_analysis_text hnItem) high_impact_keywords
      = 0.2 := by
    rw [keyword_score_eval _ _ 1 10 (by decide) (by decide) (by decide) (by decide)]
    norm_num [min_def]
  have hkc : calculate_keyword_score (get_analysis_text hnItem) curious_keywords
      = 0 := by
    rw [keyword_score_eval _ _ 0 10 (by decide) (by decide) (by decide) (by decide)]
    norm_num [min_def]
  have hki : calculate_keyword_score (get_analysis_text hnItem) insight_keywords
      = 0 := by
    rw [keyword_score_eval _ _ 0 10 (by decide) (by decide) (by decide) (by decide)]
    norm_num [min_def]
  have ha : calculate_authority_score hnItem = 0 := by
    rw [show calculate_authority_score hnItem = min ((0 : ℚ) + 0 + 0) 1 from rfl]
    norm_num [min_def]
  have hrec : calculate_recency_score hnItem now = 0.3 := rfl
  have hr : red_score hnItem now 1 = 0.41 := by
    simp only [red_score]
    rw [hk, ha, hrec]
    norm_num
  have hy : yellow_score hnItem now 1 = 0.26 := by
    simp only [yellow_score]
    rw [hkc, ha, hrec]
    norm_num
  have hg : green_score hnItem now = 0.06 := by
    simp only [green_score]
    rw [hki, ha, hrec]
    norm_num
  have hcl : classify hnItem now = ("red", 0.41) := by
    rw [classify_eq_tierDecision hnItem now 1 rfl, hr, hy, hg]
    rw [tierDecision_red_eq]
    · rw [show min (0.41 : ℚ) 1 = 0.41 from by norm_num [min_def]]
    · norm_num [max_def]
    · norm_num
  exact ⟨hcl, by norm_num, by decide, hk⟩

/-- C1: whenever the classify body raises nothing (equivalently, the
source sub-score evaluates to some value ss, the only fallible step),
the returned classification is exactly the tier decision applied to the
three combined tier-scores; and since red is tested before yellow, a
red-yellow tie at the maximum that is above 0.3 yields red, never
yellow. -/
theorem claim_C1_decision_policy (item : Item) (now : Int) (ss : ℚ)
    (h : calculate_source_score item = Except.ok ss) :
    classify item now =
      tierDecision (red_score item now ss) (yellow_score item now ss)
        (green_score item now) ∧
    (red_score item now ss = yellow_score item now ss →
      red_score item now ss =
        max (red_score item now ss)
          (max (yellow_score item now ss) (green_score item now)) →
      (0.3 : ℚ) < red_score item now ss →
      classify item now = ("red", min (red_score item now ss) 1)) := by
  have hb := classify_eq_tierDecision item now ss h
  refine ⟨hb, fun h1 h2 h3 => ?_⟩
  rw [hb]
  exact tierDecision_red_eq _ _ _ h2 h3

/-- Witness for C1: tieItem has red and yellow tier-scores both exactly
11/25 = 0.44, above both thresholds, and classifies red. -/
theorem claim_C1_witness :
    calculate_source_score tieItem = Except.ok 1 ∧
    red_score tieItem 0 1 = yellow_score tieItem 0 1 ∧
    (0.3 : ℚ) < red_score tieItem 0 1 ∧
    classify tieItem 0 = ("red", min (red_score tieItem 0 1) 1) := by
  have hk1 : calculate_keyword_score (get_analysis_text tieItem) high_impact_keywords
      = 0 := by
    rw [keyword_score_eval _ _ 0 10 (by decide) (by decide) (by decide) (by decide)]
    norm_num [min_def]
  have hk2 : calculate_keyword_score (get_analysis_text tieItem) curious_keywords
      = 0 := by
    rw [keyword_score_eval _ _ 0 10 (by decide) (by decide) (by decide) (by decide)]
    norm_num [min_def]
  have hk3 : calculate_keyword_score (get_analysis_text tieItem) insight_keywords
      = 0 := by
    rw [keyword_score_eval _ _ 0 10 (by decide) (by decide) (by decide) (by decide)]
    norm_num [min_def]
  have ha : calculate_authority_score tieItem = 0.2 := by
    rw [show calculate_authority_score tieItem = min ((0 : ℚ) + 0.2 + 0) 1 from rfl]
    norm_num [min_def]
  have hrec : calculate_recency_score tieItem 0 = 1 := by
    simp only [calculate_recency_score,
      show tieItem.published_date = some (PubDate.valid 0) from rfl]
    norm_num
  have hr : red_score tieItem 0 1 = 0.44 := by
    simp only [red_score]
    rw [hk1, ha, hrec]
    norm_num
  have hy : yellow_score tieItem 0 1 = 0.44 := by
    simp only [yellow_score]
    rw [hk2, ha, hrec]
    norm_num
  have hg : green_score tieItem 0 = 0.26 := by
    simp only [green_score]
    rw [hk3, ha, hrec]
    norm_num
  refine ⟨rfl, by rw [hr, hy], by rw [hr]; norm_num, ?_⟩
  exact (claim_C1_decision_policy tieItem 0 1 rfl).2 (by rw [hr, hy])
    (by rw [hr, hy, hg]; norm_num [max_def]) (by rw [hr]; norm_num)

/-- C5 counterexample: itemA has no url, so its insert violates the NOT
NULL constraint on the url column: the commit fails with IntegrityError,
is rolled back, and nothing is persisted.  Ingesting its fresh
(source, source_id) pair twice therefore leaves zero rows for the pair,
not the one row the claim demands. -/
theorem claim_C5_counterexample :
    pairCount db0 itemA.source itemA.source_id = 0 ∧
    ¬ (pairCount (add_feed_item (add_feed_item db0 itemA 0).2 itemA 1).2
        itemA.source itemA.source_id = 1) := by
  exact ⟨rfl, by decide⟩

/-- C5 as amended: when a persisted row with the item's
(source, source_id) pair already exists, add_feed_item returns none and
leaves the store untouched.  For an item carrying all NOT NULL columns
(source, source_id, url, title), starting from a store without the pair,
adding it and then any second item with the same pair leaves exactly one
persisted row for the pair, whether the two calls belong to one batch or
to two runs.  An item missing a NOT NULL column is never persisted: its
insert fails and is rolled back, and add_feed_item returns none with the
store unchanged. -/
theorem claim_C5_idempotent_ingestion (db : DB) (item : Item) (now : Int) :
    (db.rows.any (matchesPair item) = true → add_feed_item db item now = (none, db)) ∧
    (∀ (item2 : Item) (now2 : Int),
      item2.source = item.source → item2.source_id = item.source_id →
      pairCount db item.source item.source_id = 0 →
      notNullOk item = true →
      pairCount (add_feed_item (add_feed_item db item now).2 item2 now2).2
        item.source item.source_id = 1) ∧
    (notNullOk item = false → add_feed_item db item now = (none, db)) := by
  refine ⟨?_, ?_, ?_⟩
  · intro h
    simp [add_feed_item, h]
  · intro item2 now2 hs hsid h0 hnn
    have hfilter : db.rows.filter
        (fun r => r.source == item.source && r.source_id == item.source_id) = [] := by
      simpa [pairCount, List.length_eq_zero] using h0
    have hany : db.rows.any (matchesPair item) = false := by
      rw [List.any_eq_false]
      intro r hr
      have := List.filter_eq_nil.mp hfilter r hr
      simpa [matchesPair] using this
    have h1 : add_feed_item db item now =
        (some (mkRow item now), DB.mk (db.rows ++ [mkRow item now])) := by
      simp [add_feed_item, hany, hnn]
    rw [h1]
    have hmatch : matchesPair item2 (mkRow item now) = true := by
      simp [matchesPair, mkRow, hs, hsid]
    have hany2 : (db.rows ++ [mkRow item now]).any (matchesPair item2) = true := by
      simp [List.any_append, hmatch]
    have h2 : add_feed_item (DB.mk (db.rows ++ [mkRow item now])) item2 now2 =
        (none, DB.mk (db.rows ++ [mkRow item now])) := by
      simp [add_feed_item, hany2]
    rw [h2]
    simp [pairCount, List.filter_append, hfilter, mkRow]
  · intro hnn
    unfold add_feed_item
    rw [hnn]
    split_ifs with h1 h2
    · rfl
    · exact h2.elim
    · rfl

/-- Witness for C5: a duplicate of the fully populated itemB is rejected
without change; two successive ingestions of itemB into the empty store
persist exactly one row for its pair; and the url-less itemA is rejected
with nothing persisted. -/
theorem claim_C5_witness :
    notNullOk itemB = true ∧
    add_feed_item dbDupB itemB 5 = (none, dbDupB) ∧
    pairCount (add_feed_item (add_feed_item db0 itemB 0).2 itemB 1).2
      itemB.source itemB.source_id = 1 ∧
    add_feed_item db0 itemA 0 = (none, db0) :=
  ⟨rfl, (claim_C5_idempotent_ingestion dbDupB itemB 5).1 rfl,
    (claim_C5_idempotent_ingestion db0 itemB 0).2.1 itemB 1 rfl rfl rfl rfl,
    (claim_C5_idempotent_ingestion db0 itemA 0).2.2 rfl⟩

/-! ## Sorting lemmas for the read facade -/

theorem mem_insertDesc {x r : Row} {l : List Row} :
    x ∈ insertDesc r l ↔ x = r ∨ x ∈ l := by
  induction l with
  | nil => simp [insertDesc]
  | cons a as ih =>
    simp only [insertDesc]
    split_ifs with h
    · simp [or_assoc, or_comm, or_left_comm]
    · simp [ih]
      tauto

theorem mem_sortDesc {x : Row} {l : List Row} : x ∈ sortDesc l ↔ x ∈ l := by
  induction l with
  | nil => simp [sortDesc]
  | cons a as ih =>
    simp only [sortDesc, List.foldr_cons] at ih ⊢
    rw [mem_insertDesc, ih]
    simp

theorem pairwise_insertDesc {r : Row} {l : List Row}
    (h : List.Pairwise (fun a b => b.scraped_date ≤ a.scraped_date) l) :
    List.Pairwise (fun a b => b.scraped_date ≤ a.scraped_date) (insertDesc r l) := by
  induction l with
  | nil => simp [insertDesc]
  | cons a as ih =>
    simp only [insertDesc]
    split_ifs with hle
    · refine List.Pairwise.cons ?_ h
      intro b hb
      rcases List.mem_cons.mp hb with hb | hb
      · subst hb
        exact hle
      · have h2 := (List.pairwise_cons.mp h).1 b hb
        omega
    · refine List.Pairwise.cons ?_ (ih (List.pairwise_cons.mp h).2)
      intro b hb
      rcases mem_insertDesc.mp hb with hb | hb
      · subst hb
        omega
      · exact (List.pairwise_cons.mp h).1 b hb

theorem pairwise_sortDesc (l : List Row) :
    List.Pairwise (fun a b => b.scraped_date ≤ a.scraped_date) (sortDesc l) := by
  induction l with
  | nil => simp [sortDesc]
  | cons a as ih => exact pairwise_insertDesc ih

/-- C7 counterexample: the count-only query cannot apply the
max-age-in-hours window: on a store holding one row scraped at time 0,
queried at time 1000000 with a one-hour window, the item query filters
the row out while get_item_count (which has no hours parameter at all)
still counts it. -/
theorem claim_C7_counterexample :
    ¬ (get_item_count exDB7 none none =
        (exDB7.rows.filter (fun r => sourceFilter none r && signalFilter none r &&
          timeFilter (some 1) 1000000 r)).length) := by
  decide

/-- C7 as amended: the item query returns only rows passing all three
filters, sorted most-recently-scraped first and paginated by offset and
limit; the count-only query applies the source and tier filters (but no
time window, which it does not accept). -/
theorem claim_C7_read_facade (db : DB) (limit offset : Nat)
    (source signal_type : Option String) (hours_back : Option Int) (now : Int) :
    (∀ r ∈ get_feed_items db limit offset source signal_type hours_back now,
      (sourceFilter source r && signalFilter signal_type r &&
        timeFilter hours_back now r) = true) ∧
    List.Pairwise (fun a b => b.scraped_date ≤ a.scraped_date)
      (get_feed_items db limit offset source signal_type hours_back now) ∧
    (get_feed_items db limit offset source signal_type hours_back now).length ≤ limit ∧
    get_item_count db source signal_type =
      (db.rows.filter (fun r => sourceFilter source r && signalFilter signal_type r)).length := by
  refine ⟨?_, ?_, ?_, rfl⟩
  · intro r hr
    have h1 : r ∈ (sortDesc (db.rows.filter (fun r =>
        sourceFilter source r && signalFilter signal_type r &&
          timeFilter hours_back now r))).drop offset :=
      (List.take_sublist _ _).subset hr
    have h2 : r ∈ sortDesc (db.rows.filter (fun r =>
        sourceFilter source r && signalFilter signal_type r &&
          timeFilter hours_back now r)) :=
      (List.drop_sublist _ _).subset h1
    exact (List.mem_filter.mp (mem_sortDesc.mp h2)).2
  · have hsub : (((sortDesc (db.rows.filter (fun r =>
        sourceFilter source r && signalFilter signal_type r &&
          timeFilter hours_back now r))).drop offset).take limit).Sublist
        (sortDesc (db.rows.filter (fun r =>
          sourceFilter source r && signalFilter signal_type r &&
            timeFilter hours_back now r))) :=
      (List.take_sublist _ _).trans (List.drop_sublist _ _)
    exact List.Pairwise.sublist hsub (pairwise_sortDesc _)
  · exact List.length_take_le _ _

/-- Witness for C7: on a one-row store with no filters, the row is
returned and satisfies the (trivial) filters. -/
theorem claim_C7_witness :
    oldRow ∈ get_feed_items exDB7 50 0 none none none 0 ∧
    (sourceFilter none oldRow && signalFilter none oldRow &&
      timeFilter none 0 oldRow) = true :=
  ⟨by decide, (claim_C7_read_facade exDB7 50 0 none none none 0).1 oldRow (by decide)⟩

/-- C8 counterexample: on the empty list the summary dict carries the
total and the three zero counts but no percentage entries at all, so the
claim that every list (including the empty one) gets per-tier
percentages fails. -/
theorem claim_C8_counterexample :
    (get_classification_summary [] 0).lookup "red_pct" = none ∧
    (get_classification_summary [] 0).lookup "yellow_pct" = none ∧
    (get_classification_summary [] 0).lookup "green_pct" = none ∧
    (get_classification_summary [] 0).lookup "total" = some 0 := by
  refine ⟨rfl, rfl, rfl, rfl⟩

/-- C8 as amended: on every nonempty list the summary carries the total,
the count of each tier, and each tier's percentage of the total rounded
to one decimal (Python round, half to even); on the empty list it
carries only the total and zero counts, with no percentage entries. -/
theorem claim_C8_summary (items : List Item) (now : Int) (h : items ≠ []) :
    (get_classification_summary items now).lookup "total" =
      some ((items.length : ℚ)) ∧
    (get_classification_summary items now).lookup "red" =
      some (((tiersOf items now).count "red" : ℚ)) ∧
    (get_classification_summary items now).lookup "yellow" =
      some (((tiersOf items now).count "yellow" : ℚ)) ∧
    (get_classification_summary items now).lookup "green" =
      some (((tiersOf items now).count "green" : ℚ)) ∧
    (get_classification_summary items now).lookup "red_pct" =
      some (pyRound1 (((tiersOf items now).count "red" : ℚ) / (items.length : ℚ) * 100)) ∧
    (get_classification_summary items now).lookup "yellow_pct" =
      some (pyRound1 (((tiersOf items now).count "yellow" : ℚ) / (items.length : ℚ) * 100)) ∧
    (get_classification_summary items now).lookup "green_pct" =
      some (pyRound1 (((tiersOf items now).count "green" : ℚ) / (items.length : ℚ) * 100)) := by
  cases items with
  | nil => exact absurd rfl h
  | cons a as => exact ⟨rfl, rfl, rfl, rfl, rfl, rfl, rfl⟩

/-- Witness for C8: the one-item list built from the empty item. -/
theorem claim_C8_witness :
    ([emptyItem] ≠ ([] : List Item)) ∧
    (get_classification_summary [emptyItem] 0).lookup "total" = some 1 :=
  ⟨by simp, (claim_C8_summary [emptyItem] 0 (by simp)).1⟩

/-! ## The ingestion run trace -/

/-- Every element of collectAll coming from the ok entry at position k is
tagged start + k. -/
theorem mem_collectAll (results : List (Except Unit (List Item))) :
    ∀ (start k : Nat) (its : List Item) (item : Item),
      results.get? k = some (Except.ok its) → item ∈ its →
      (start + k, item) ∈ collectAll start results := by
  induction results with
  | nil =>
    intro start k its item hk
    simp at hk
  | cons r rest ih =>
    intro start k its item hk hmem
    cases k with
    | zero =>
      simp only [List.get?_cons_zero, Option.some.injEq] at hk
      subst hk
      simp only [collectAll, Nat.add_zero]
      exact List.mem_append_left _ (List.mem_map.mpr ⟨item, hmem, rfl⟩)
    | succ k =>
      simp only [List.get?_cons_succ] at hk
      have h2 := ih (start + 1) k its item hk hmem
      have harith : start + (k + 1) = start + 1 + k := by omega
      cases r with
      | ok l =>
        simp only [collectAll]
        refine List.mem_append_right _ ?_
        rw [harith]
        exact h2
      | error e =>
        simp only [collectAll]
        rw [harith]
        exact h2

/-- C6 counterexample: with two sources that each return one item, the
run trace violates the per-source batch order: the persistence step of
the first source happens only after the second source has been
processed. -/
theorem claim_C6_counterexample :
    perSourceBatchOrder (run_manual_scrape exResults6 db0 0).1 = false := by
  decide

/-- C6 as amended: run_manual_scrape scrapes every source first (in
order, a failing source merely contributing nothing) and only then
classifies and persists the accumulated items: in the trace every scrape
event precedes every save event, and every item of every successful
source, also one before a failed source, is collected and saved. -/
theorem claim_C6_batch_order (results : List (Except Unit (List Item)))
    (db : DB) (now : Int) :
    (∀ i j a b,
      (run_manual_scrape results db now).1.get? i = some (SEvent.scrape a) →
      (run_manual_scrape results db now).1.get? j = some (SEvent.save b) →
      i < j) ∧
    (∀ (k : Nat) (its : List Item) (item : Item),
      results.get? k = some (Except.ok its) → item ∈ its →
      (k, item) ∈ collectAll 0 results ∧
      SEvent.save k ∈ (run_manual_scrape results db now).1) := by
  constructor
  · intro i j a b hi hj
    simp only [run_manual_scrape] at hi hj
    have hlen : ((List.range results.length).map SEvent.scrape).length =
        results.length := by simp
    have hin : i < results.length := by
      by_contra hge
      rw [List.get?_append_right (by omega)] at hi
      have hmem := List.get?_mem hi
      rcases List.mem_map.mp hmem with ⟨p, hp, hpe⟩
      simp at hpe
    have hjn : results.length ≤ j := by
      by_contra hlt
      rw [List.get?_append (by omega)] at hj
      rw [List.get?_map] at hj
      rw [List.get?_range (by omega)] at hj
      simp at hj
    omega
  · intro k its item hk hmem
    have hc : (k, item) ∈ collectAll 0 results := by
      have := mem_collectAll results 0 k its item hk hmem
      simpa using this
    refine ⟨hc, ?_⟩
    simp only [run_manual_scrape]
    exact List.mem_append_right _ (List.mem_map.mpr ⟨(k, item), hc, rfl⟩)

/-- Witness for C6: the three-source run whose middle source fails: the
first scrape precedes the save of the first source's item, and the third
source's item is still collected and saved. -/
theorem claim_C6_witness :
    (run_manual_scrape resultsW6 db0 0).1.get? 0 = some (SEvent.scrape 0) ∧
    (run_manual_scrape resultsW6 db0 0).1.get? 3 = some (SEvent.save 0) ∧
    0 < 3 ∧
    (2, emptyItem) ∈ collectAll 0 resultsW6 ∧
    SEvent.save 2 ∈ (run_manual_scrape resultsW6 db0 0).1 := by
  have h := (claim_C6_batch_order resultsW6 db0 0).2 2 [emptyItem] emptyItem rfl
    (by simp)
  exact ⟨rfl, rfl,
    (claim_C6_batch_order resultsW6 db0 0).1 0 3 0 0 rfl rfl, h.1, h.2⟩

/-! ## Whole-word matching is invariant under stripping

The code strips the analysis text while the specification formula does
not mention stripping; for keywords that start and end with a word
character (all configured keywords do) the two give the same matches.
The lemmas below establish this. -/

theorem isPrefixOf_length {kw u : List Char} (h : List.isPrefixOf kw u = true) :
    kw.length ≤ u.length := by
  induction kw generalizing u with
  | nil => simp
  | cons a as ih =>
    cases u with
    | nil => simp [List.isPrefixOf] at h
    | cons b bs =>
      simp only [List.isPrefixOf, Bool.and_eq_true] at h
      have := ih h.2
      simp only [List.length_cons]
      omega

theorem isPrefixOf_eq_of_length_le {kw u : List Char}
    (h : List.isPrefixOf kw u = true) (hl : u.length ≤ kw.length) : kw = u := by
  induction kw generalizing u with
  | nil =>
    cases u with
    | nil => rfl
    | cons b bs => simp at hl
  | cons a as ih =>
    cases u with
    | nil => simp [List.isPrefixOf] at h
    | cons b bs =>
      simp only [List.isPrefixOf, Bool.and_eq_true, beq_iff_eq] at h
      simp only [List.length_cons] at hl
      rw [h.1, ih h.2 (by omega)]

theorem isPrefixOf_append_left {kw u : List Char} (v : List Char)
    (h : List.isPrefixOf kw u = true) : List.isPrefixOf kw (u ++ v) = true := by
  induction kw generalizing u with
  | nil => simp [List.isPrefixOf]
  | cons a as ih =>
    cases u with
    | nil => simp [List.isPrefixOf] at h
    | cons b bs =>
      simp only [List.isPrefixOf, Bool.and_eq_true] at h
      simp only [List.cons_append, List.isPrefixOf, Bool.and_eq_true]
      exact ⟨h.1, ih h.2⟩

theorem isPrefixOf_append_of_length_le {kw u : List Char} (v : List Char)
    (hl : kw.length ≤ u.length) :
    List.isPrefixOf kw (u ++ v) = List.isPrefixOf kw u := by
  induction kw generalizing u with
  | nil => simp [List.isPrefixOf]
  | cons a as ih =>
    cases u with
    | nil => simp at hl
    | cons b bs =>
      simp only [List.length_cons] at hl
      simp only [List.cons_append, List.isPrefixOf, List.append_eq]
      rw [ih (by omega)]

theorem pyIsSpace_not_word {c : Char} (h : pyIsSpace c = true) :
    isWordChar c = false := by
  simp only [pyIsSpace, Bool.or_eq_true, beq_iff_eq] at h
  rcases h with ((((h | h) | h) | h) | h) | h <;> subst h <;> rfl

/-- matchHere only looks at whether the previous character is a word
character, not at the character itself. -/
theorem matchHere_congr_prev {p1 p2 : Option Char}
    (h : optIsWord p1 = optIsWord p2) (t kw : List Char) :
    matchHere p1 t kw = matchHere p2 t kw := by
  simp only [matchHere, bdry]
  cases hkw : kw.isEmpty <;> simp [hkw, h]

theorem scanMatch_congr_prev (kw : List Char) {p1 p2 : Option Char}
    (h : optIsWord p1 = optIsWord p2) (t : List Char) :
    scanMatch kw p1 t = scanMatch kw p2 t := by
  cases t with
  | nil => simp [scanMatch, matchHere_congr_prev h]
  | cons c rest => simp [scanMatch, matchHere_congr_prev h]

/-- A keyword starting with a word character cannot match at a
non-word character. -/
theorem matchHere_head_not_word {k c : Char} {ktl t : List Char} {p : Option Char}
    (hk : isWordChar k = true) (hc : isWordChar c = false) :
    matchHere p (c :: t) (k :: ktl) = false := by
  have hne : (k == c) = false := by
    rw [beq_eq_false_iff_ne]
    rintro rfl
    rw [hk] at hc
    simp at hc
  simp [matchHere, List.isPrefixOf, hne]

/-- Dropping leading whitespace does not change whole-word matches of a
word-edged keyword. -/
theorem scanMatch_dropWhile_space {kw : List Char} (hkw : kwEdgeOk kw = true)
    (t : List Char) :
    scanMatch kw none (t.dropWhile pyIsSpace) = scanMatch kw none t := by
  induction t with
  | nil => rfl
  | cons c rest ih =>
    by_cases hc : pyIsSpace c = true
    · rw [List.dropWhile_cons, if_pos hc, ih]
      obtain ⟨k, ktl, hkcons⟩ : ∃ k ktl, kw = k :: ktl := by
        rcases kw with _ | ⟨k, ktl⟩
        · simp [kwEdgeOk] at hkw
        · exact ⟨k, ktl, rfl⟩
      subst hkcons
      have hkword : isWordChar k = true := by
        simp only [kwEdgeOk, Bool.and_eq_true] at hkw
        simpa [optIsWord] using hkw.1.2
      rw [show scanMatch (k :: ktl) none (c :: rest) =
          (matchHere none (c :: rest) (k :: ktl) || scanMatch (k :: ktl) (some c) rest)
          from rfl]
      rw [matchHere_head_not_word hkword (pyIsSpace_not_word hc)]
      rw [scanMatch_congr_prev _ (show optIsWord (some c) = optIsWord none by
        simp [optIsWord, pyIsSpace_not_word hc])]
      simp
    · rw [List.dropWhile_cons, if_neg hc]

/-- Appending one whitespace character at the end does not change a
match attempted inside the original nonempty text. -/
theorem matchHere_append_space {kw : List Char} (hkw : kwEdgeOk kw = true)
    {c : Char} (hc : pyIsSpace c = true) (p : Option Char) (t : List Char)
    (ht : t ≠ []) :
    matchHere p (t ++ [c]) kw = matchHere p t kw := by
  have hne : kw.isEmpty = false := by
    simp only [kwEdgeOk, Bool.and_eq_true] at hkw
    simpa using hkw.1.1
  have hlast : optIsWord kw.getLast? = true := by
    simp only [kwEdgeOk, Bool.and_eq_true] at hkw
    exact hkw.2
  by_cases hpre : List.isPrefixOf kw t = true
  · have hlen := isPrefixOf_length hpre
    have hpre2 : List.isPrefixOf kw (t ++ [c]) = true := isPrefixOf_append_left _ hpre
    have hhead : (t ++ [c]).head? = t.head? := by
      rw [List.head?_append]
      cases t with
      | nil => exact absurd rfl ht
      | cons a as => rfl
    simp only [matchHere, hpre, hpre2, hhead, hne, Bool.false_eq_true, if_false]
    rcases Nat.lt_or_ge kw.length t.length with hlt | hge
    · have hdrop : (t ++ [c]).drop kw.length = t.drop kw.length ++ [c] := by
        rw [List.drop_append_eq_append_drop, Nat.sub_eq_zero_of_le (by omega)]
        rfl
      rw [hdrop, List.head?_append]
      have hdne : t.drop kw.length ≠ [] := by
        intro hnil
        have := congrArg List.length hnil
        simp only [List.length_drop, List.length_nil] at this
        omega
      cases hd : t.drop kw.length with
      | nil => exact absurd hd hdne
      | cons x xs => rfl
    · have hkeq : kw = t := isPrefixOf_eq_of_length_le hpre hge
      subst hkeq
      have h1 : (kw ++ [c]).drop kw.length = [c] := by
        rw [List.drop_append_eq_append_drop, Nat.sub_eq_zero_of_le (le_refl _)]
        simp
      have h2 : kw.drop kw.length = [] := by simp
      rw [h1, h2]
      simp only [bdry, List.head?_cons, List.head?_nil]
      rw [show optIsWord (some c) = false from by
        simpa [optIsWord] using pyIsSpace_not_word hc]
      rw [show optIsWord none = false from rfl]
  · have hp : List.isPrefixOf kw t = false := Bool.eq_false_iff.mpr hpre
    have hpre2 : List.isPrefixOf kw (t ++ [c]) = false := by
      by_contra hcon
      rw [Bool.not_eq_false] at hcon
      have hlen := isPrefixOf_length hcon
      rw [List.length_append] at hlen
      rcases Nat.lt_or_ge t.length kw.length with hgt | hle2
      · have heq : kw = t ++ [c] := isPrefixOf_eq_of_length_le hcon (by
          rw [List.length_append]
          simp only [List.length_cons, List.length_nil]
          omega)
        rw [heq, List.getLast?_concat] at hlast
        rw [show optIsWord (some c) = false from by
          simpa [optIsWord] using pyIsSpace_not_word hc] at hlast
        simp at hlast
      · rw [isPrefixOf_append_of_length_le _ hle2] at hcon
        exact absurd hcon hpre
    simp [matchHere, hp, hpre2]

/-- Appending one whitespace character at the end never changes the
scan result for a word-edged keyword. -/
theorem scanMatch_append_space {kw : List Char} (hkw : kwEdgeOk kw = true)
    {c : Char} (hc : pyIsSpace c = true) :
    ∀ (p : Option Char) (t : List Char),
      scanMatch kw p (t ++ [c]) = scanMatch kw p t := by
  have hlast : optIsWord kw.getLast? = true := by
    simp only [kwEdgeOk, Bool.and_eq_true] at hkw
    exact hkw.2
  obtain ⟨k, ktl, hkcons⟩ : ∃ k ktl, kw = k :: ktl := by
    rcases kw with _ | ⟨k, ktl⟩
    · simp [kwEdgeOk] at hkw
    · exact ⟨k, ktl, rfl⟩
  intro p t
  induction t generalizing p with
  | nil =>
    have hpre : List.isPrefixOf kw [c] = false := by
      by_contra hcon
      rw [Bool.not_eq_false] at hcon
      have heq : kw = [c] := isPrefixOf_eq_of_length_le hcon (by
        subst hkcons
        simp)
      rw [heq] at hlast
      rw [show ([c].getLast? : Option Char) = some c from rfl] at hlast
      rw [show optIsWord (some c) = false from by
        simpa [optIsWord] using pyIsSpace_not_word hc] at hlast
      simp at hlast
    have h1 : matchHere p [c] kw = false := by
      simp [matchHere, hpre]
    have h2 : scanMatch kw (some c) [] = false := by
      subst hkcons
      simp [scanMatch, matchHere, List.isPrefixOf]
    have h3 : scanMatch kw p [] = false := by
      subst hkcons
      simp [scanMatch, matchHere, List.isPrefixOf]
    show scanMatch kw p [c] = scanMatch kw p []
    rw [show scanMatch kw p [c] =
        (matchHere p [c] kw || scanMatch kw (some c) []) from by
      subst hkcons
      rfl]
    rw [h1, h2, h3]
    rfl
  | cons a rest ih =>
    show scanMatch kw p (a :: (rest ++ [c])) = scanMatch kw p (a :: rest)
    rw [show scanMatch kw p (a :: (rest ++ [c])) =
        (matchHere p (a :: (rest ++ [c])) kw || scanMatch kw (some a) (rest ++ [c]))
        from by
      subst hkcons
      rfl]
    rw [show scanMatch kw p (a :: rest) =
        (matchHere p (a :: rest) kw || scanMatch kw (some a) rest) from by
      subst hkcons
      rfl]
    rw [ih (some a)]
    rw [show a :: (rest ++ [c]) = (a :: rest) ++ [c] from rfl]
    rw [matchHere_append_space hkw hc p (a :: rest) (by simp)]

/-- Appending trailing whitespace never changes the scan result. -/
theorem scanMatch_append_spaces {kw : List Char} (hkw : kwEdgeOk kw = true) :
    ∀ (s t : List Char), (∀ x ∈ s, pyIsSpace x = true) →
      scanMatch kw none (t ++ s) = scanMatch kw none t := by
  intro s
  induction s with
  | nil =>
    intro t _
    rw [List.append_nil]
  | cons x s2 ih =>
    intro t hs
    rw [show t ++ x :: s2 = (t ++ [x]) ++ s2 from by simp]
    rw [ih (t ++ [x]) (fun y hy => hs y (List.mem_cons_of_mem _ hy))]
    exact scanMatch_append_space hkw (hs x (List.mem_cons_self _ _)) none t

/-- Stripping the text does not change whole-word matches of a
word-edged keyword. -/
theorem hasWordMatch_pyStrip {kw : List Char} (hkw : kwEdgeOk kw = true)
    (t : List Char) : hasWordMatch (pyStrip t) kw = hasWordMatch t kw := by
  unfold hasWordMatch pyStrip
  rw [← scanMatch_dropWhile_space hkw t]
  set u := t.dropWhile pyIsSpace with hu
  have hdecomp : u = (u.reverse.dropWhile pyIsSpace).reverse ++
      (u.reverse.takeWhile pyIsSpace).reverse := by
    rw [← List.reverse_append, List.takeWhile_append_dropWhile, List.reverse_reverse]
  have hmem : ∀ x ∈ (u.reverse.takeWhile pyIsSpace).reverse, pyIsSpace x = true := by
    intro x hx
    rw [List.mem_reverse] at hx
    exact List.mem_takeWhile_imp hx
  conv_rhs => rw [hdecomp]
  exact (scanMatch_append_spaces hkw _ _ hmem).symm

/-- C4: for each of the three configured keyword sets, the keyword
sub-score computed by the code on its (stripped) analysis text equals
the specification formula min(matches/size + min(matches*0.1, 0.3), 1)
with whole-word matches counted over the unstripped concatenation of the
lowercased title, a space, and the first 200 characters of the
lowercased description. -/
theorem claim_C4_keyword_score (item : Item) (keywords : List (List Char))
    (hk : keywords = high_impact_keywords ∨ keywords = curious_keywords ∨
      keywords = insight_keywords) :
    calculate_keyword_score (get_analysis_text item) keywords =
      spec_keyword_score (str (item.title.getD "")) (str (item.description.getD ""))
        keywords := by
  have hall : ∀ kw ∈ keywords, kwEdgeOk kw = true := by
    have hdec : keywords.all kwEdgeOk = true := by
      rcases hk with h | h | h <;> subst h <;> decide
    exact fun kw hkw => List.all_eq_true.mp hdec kw hkw
  have hke : keywords.isEmpty = false := by
    rcases hk with h | h | h <;> subst h <;> decide
  have hD : (if 200 < (lowerStr (str (item.description.getD ""))).length
      then (lowerStr (str (item.description.getD ""))).take 200
      else lowerStr (str (item.description.getD ""))) =
      (lowerStr (str (item.description.getD ""))).take 200 := by
    split_ifs with h
    · rfl
    · exact (List.take_of_length_le (by omega)).symm
  have hC : get_analysis_text item =
      pyStrip (spec_analysis_text (str (item.title.getD ""))
        (str (item.description.getD ""))) := by
    simp only [get_analysis_text, spec_analysis_text, hD]
  have hcnt : keywords.countP (fun kw => hasWordMatch (get_analysis_text item) kw) =
      keywords.countP (fun kw => hasWordMatch (spec_analysis_text
        (str (item.title.getD "")) (str (item.description.getD ""))) kw) := by
    refine List.countP_congr fun kw hkw => ?_
    rw [hC, hasWordMatch_pyStrip (hall kw hkw)]
  have hSne : (spec_analysis_text (str (item.title.getD ""))
      (str (item.description.getD ""))).isEmpty = false := by
    simp only [spec_analysis_text]
    cases lowerStr (str (item.title.getD "")) <;> rfl
  by_cases hCe : (get_analysis_text item).isEmpty = true
  · have hnil : get_analysis_text item = [] := List.isEmpty_iff.mp hCe
    have hzero : keywords.countP (fun kw => hasWordMatch (spec_analysis_text
        (str (item.title.getD "")) (str (item.description.getD ""))) kw) = 0 := by
      rw [← hcnt]
      refine List.countP_eq_zero.mpr fun kw hkw => ?_
      rw [hnil]
      obtain ⟨k, ktl, hkcons⟩ : ∃ k ktl, kw = k :: ktl := by
        rcases kw with _ | ⟨k, ktl⟩
        · have := hall _ hkw
          simp [kwEdgeOk] at this
        · exact ⟨k, ktl, rfl⟩
      subst hkcons
      simp [hasWordMatch, scanMatch, matchHere, List.isPrefixOf]
    rw [show calculate_keyword_score (get_analysis_text item) keywords = 0 from by
      simp [calculate_keyword_score, hCe]]
    simp only [spec_keyword_score, hSne, hke, Bool.or_self, Bool.false_eq_true,
      if_false]
    rw [hzero]
    norm_num [min_def]
  · have hCf : (get_analysis_text item).isEmpty = false := Bool.eq_false_iff.mpr hCe
    simp only [calculate_keyword_score, spec_keyword_score, hCf, hSne, hke,
      Bool.or_self, Bool.false_eq_true, if_false]
    rw [hcnt]

/-- Witness for C4: the end-to-end item evaluated on the high-impact
set, where one keyword matches and the sub-score is 0.2. -/
theorem claim_C4_witness :
    calculate_keyword_score (get_analysis_text hnItem) high_impact_keywords =
      spec_keyword_score (str (hnItem.title.getD "")) (str (hnItem.description.getD ""))
        high_impact_keywords ∧
    calculate_keyword_score (get_analysis_text hnItem) high_impact_keywords = 0.2 := by
  refine ⟨claim_C4_keyword_score hnItem high_impact_keywords (Or.inl rfl), ?_⟩
  rw [keyword_score_eval _ _ 1 10 (by decide) (by decide) (by decide) (by decide)]
  norm_num [min_def]

end AiSignalFeed
